import Mathlib

/-!
Verification development for the JARVIS control plane (`src/main.js`):
the hash-chained audit log, the permission gate, the autopilot
supervisor (dead-man switch) and the task-runner state machine.

Each JavaScript function of the control plane is shallowly embedded as a
pure Lean function; the process-wide mutable singletons become explicit
state records threaded through the operations.  The SHA-256 digest is
modelled as an uninterpreted function `H : String → String`, since every
property below holds for an arbitrary digest function.
-/

namespace Jarvis

/-- JS `a || b` on strings: the empty string is falsy. -/
def strOr (a b : String) : String := if a = "" then b else a

/-- JS `String.prototype.trim`: strip leading and trailing whitespace
(structural model, so that terms evaluate inside the kernel). -/
def jsTrim (s : String) : String :=
  ⟨((s.data.dropWhile Char.isWhitespace).reverse.dropWhile Char.isWhitespace).reverse⟩

-- ==================== Audit chain (`auditEvent`, `sha256Hex`) ====================

/-- One line of `audit.jsonl`: the payload built by `auditEvent`.
`data` holds the canonical JSON serialization `JSON.stringify(payload.data)`. -/
structure AuditRecord where
  ts : Nat
  type : String
  data : String
  prev_hash : String
  hash : String
  deriving Repr, DecidableEq

/-- The pre-image string of the record hash:
`` `${ts}|${type}|${JSON.stringify(data)}|${prev_hash}` ``. -/
def auditCore (r : AuditRecord) : String :=
  toString r.ts ++ "|" ++ r.type ++ "|" ++ r.data ++ "|" ++ r.prev_hash

/-- The durable audit state: the `lastHash` pointer (`audit_state.json`)
plus the append-only log (`audit.jsonl`). -/
structure AuditState where
  lastHash : String
  log : List AuditRecord
  deriving Repr, DecidableEq

/-- Fresh chain: no pointer file, empty log (`readAuditState` falls back to `""`). -/
def emptyAudit : AuditState := ⟨"", []⟩

/-- `auditEvent(type, data)`: read the last hash, build the payload with
`prev_hash := lastHash`, hash the core string with `H` (SHA-256 in the code),
append the record and update the pointer. -/
def auditEvent (H : String → String) (st : AuditState) (ts : Nat)
    (type data : String) : AuditState :=
  let prev := st.lastHash
  let r : AuditRecord := { ts := ts, type := type, data := data, prev_hash := prev,
                           hash := H (toString ts ++ "|" ++ type ++ "|" ++ data ++ "|" ++ prev) }
  ⟨r.hash, st.log ++ [r]⟩

/-- Replay a whole sequence of `append` operations from the empty chain. -/
def auditRun (H : String → String) (evs : List (Nat × String × String)) : AuditState :=
  evs.foldl (fun st e => auditEvent H st e.1 e.2.1 e.2.2) emptyAudit

/-- Chain validity from a given predecessor hash `prev`: the first record's
`prev_hash` is `prev`, each record's `hash` recomputes from its own fields,
and each later record links to the one before it. -/
def chainFrom (H : String → String) (prev : String) : List AuditRecord → Bool
  | [] => true
  | r :: rs => r.prev_hash == prev && r.hash == H (auditCore r) && chainFrom H r.hash rs

/-- Whole-chain validity starting from the genesis predecessor `""`. -/
def chainOk (H : String → String) (l : List AuditRecord) : Bool := chainFrom H "" l

/-- The hash the chain ends with (the expected `lastHash` pointer). -/
def chainEnd (prev : String) : List AuditRecord → String
  | [] => prev
  | r :: rs => chainEnd r.hash rs

-- ==================== Permission gate (`permRequest`) ====================

/-- `jarvis_cfg.json`'s `permissions` map: capability class ↦ `"allow" | "deny"`. -/
abbrev PermMap := List (String × String)

/-- Read `cfg.permissions[key]` (`none` = no persisted decision). -/
def permLookup (ps : PermMap) (k : String) : Option String :=
  match ps with
  | [] => none
  | (a, v) :: rest => if a = k then some v else permLookup rest k

/-- Store a decision: `cfg.permissions[key] = v`. -/
def setPerm (ps : PermMap) (k v : String) : PermMap :=
  (k, v) :: ps.filter (fun p => p.1 ≠ k)

/-- `String(className || "").trim() || "unknown"`. -/
def permKey (c : String) : String :=
  if jsTrim c = "" then "unknown" else jsTrim c

/-- `(r && typeof r.response === "number") ? r.response : 0`:
an absent/ambiguous dialog response defaults to button 0 (DENY). -/
def normResp : Option Nat → Nat
  | none => 0
  | some n => n

/-- The value `permRequest` resolves to, plus whether the dialog was shown. -/
structure PermOut where
  ok : Bool
  decision : String
  cached : Bool
  once : Bool
  prompted : Bool
  deriving Repr, DecidableEq

/-- An audit-log entry as `(type, data)`; `data` is structured per event kind. -/
inductive AuditData where
  | permDecision (cls decision mode : String)
  | armState (armed : Bool) (why : String)
  | takeover (why : String)
  | hotkeyReg (accel : String)
  | hotkeyRegFail
  | hotkeyUnreg (accel : String)
  | injectIgnore (ms : Nat)
  deriving Repr, DecidableEq

/-- The in-memory audit trail of the supervisor model (types with data). -/
abbrev AuditTrail := List (String × AuditData)

/-- `permRequest(className, whyText)`: serve a persisted `"allow"`/`"deny"`
immediately with `cached=true` and no prompt and no audit write; otherwise show
the three-button dialog (`resp`: 0 DENY, 1 ALLOW ONCE, 2 ALWAYS ALLOW, anything
else falls through to DENY), persist always-decisions, and audit the fresh
decision.  Returns the updated config, the result, and the audit entries
appended by the call. -/
def permRequest (ps : PermMap) (cls : String) (resp : Option Nat) :
    PermMap × PermOut × AuditTrail :=
  let key := permKey cls
  let cur := permLookup ps key
  if cur = some "allow" then (ps, ⟨true, "allow", true, false, false⟩, [])
  else if cur = some "deny" then (ps, ⟨true, "deny", true, false, false⟩, [])
  else
    let r := normResp resp
    if r = 2 then
      (setPerm ps key "allow", ⟨true, "allow", false, false, true⟩,
        [("PERMISSION_DECISION", .permDecision key "allow" "always")])
    else if r = 1 then
      (ps, ⟨true, "allow", false, true, true⟩,
        [("PERMISSION_DECISION", .permDecision key "allow" "once")])
    else
      (setPerm ps key "deny", ⟨true, "deny", false, false, true⟩,
        [("PERMISSION_DECISION", .permDecision key "deny" "always")])

/-- Run a sequence of permission requests (class, dialog response), keeping
only the evolving config. -/
def permRun (ps : PermMap) (calls : List (String × Option Nat)) : PermMap :=
  calls.foldl (fun m c => (permRequest m c.1 c.2).1) ps

-- ==================== Task runner (the `runner` object) ====================

/-- One entry of `runner.steps`, as built by `_pushStep`. -/
structure Step where
  ts : Nat
  title : String
  status : String
  proof : String
  deriving Repr, DecidableEq

/-- The mutable fields of the `runner` singleton (the in-flight promise is
modelled by feeding its outcome to `runnerComplete` explicitly). -/
structure RunnerState where
  running : Bool
  paused : Bool
  stopRequested : Bool
  taskText : String
  steps : List Step
  error : String
  nextAction : String
  lastReport : String
  proofJsonPath : String
  deriving Repr, DecidableEq

/-- The runner at process start. -/
def runnerInit : RunnerState :=
  ⟨false, false, false, "", [], "", "", "", ""⟩

/-- Events the runner pushes to the renderer / the user.  `reportDialog` and
`notification` come only from `_showStopReport`; `reportEv` is a
`jarvis:report` send; `answerEv` is a `jarvis:answer` send. -/
inductive REvent where
  | log (line : String)
  | stepEv (s : Step)
  | stateEv
  | reportDialog (report : String)
  | notification
  | reportEv (report : String)
  | answerEv (taskText answer proofPath : String)
  deriving Repr, DecidableEq

/-- The `{ok, error}` value runner methods return. -/
structure RRes where
  ok : Bool
  error : String
  deriving Repr, DecidableEq

/-- The last `n` steps (`steps.slice(-n)`). -/
def lastN (n : Nat) (l : List Step) : List Step := l.drop (l.length - n)

/-- One line of the "LAST 5 STEPS" block. -/
def stepLine (s : Step) : String :=
  "- " ++ s.title ++ " :: " ++ s.status ++ (if s.proof = "" then "" else " | " ++ s.proof)

/-- `_makeStopReport(reason)`: the textual report (the caller also stores it
into `lastReport`). -/
def makeStopReport (st : RunnerState) (reason : String) : String :=
  let last5 := (lastN 5 st.steps).map stepLine
  "TASK: " ++ strOr st.taskText "(none)" ++ "\n\n" ++
  "LAST 5 STEPS:\n" ++
    (if last5.isEmpty then "(no steps)" else String.intercalate "\n" last5) ++ "\n\n" ++
  "ERROR/BLOCK: " ++ strOr st.error (strOr reason "(none)") ++ "\n\n" ++
  "NEXT ACTION: " ++
    strOr st.nextAction "Retry after resolving the block or providing authorization." ++ "\n\n" ++
  "PROOF JSON: " ++ strOr st.proofJsonPath "(none)"

/-- `_showStopReport(reason)`: build the report, store it in `lastReport`,
show the modal dialog and a notification, and send `jarvis:report`. -/
def showStopReport (st : RunnerState) (reason : String) : RunnerState × List REvent :=
  let rep := makeStopReport st reason
  ({ st with lastReport := rep }, [.reportDialog rep, .notification, .reportEv rep])

/-- `runner.start(taskText, apiKey, history, rulesText)`: validation
(`EMPTY_TASK`, `NO_API_KEY`, `ALREADY_RUNNING`), then field reset, initial
log/step/state emission.  `ts` stands for `Date.now()` at the initial step. -/
def runnerStart (st : RunnerState) (taskText apiKey : String) (ts : Nat) :
    RunnerState × RRes × List REvent :=
  let t := jsTrim taskText
  let k := jsTrim apiKey
  if t = "" then (st, ⟨false, "EMPTY_TASK"⟩, [.log "No task text provided."])
  else if k = "" then (st, ⟨false, "NO_API_KEY"⟩, [.log "API key missing."])
  else if st.running then (st, ⟨false, "ALREADY_RUNNING"⟩, [.log "Already running."])
  else
    let step : Step := ⟨ts, "Input received", "ok", "api_key_present=true"⟩
    let st1 : RunnerState :=
      { running := true, paused := false, stopRequested := false, taskText := t,
        steps := [step], error := "", nextAction := "", lastReport := "",
        proofJsonPath := "" }
    (st1, ⟨true, ""⟩, [.log ("START: " ++ t), .stepEv step, .stateEv])

/-- `runner.pause()`. -/
def runnerPause (st : RunnerState) : RunnerState × RRes × List REvent :=
  if st.running then
    ({ st with paused := true }, ⟨true, ""⟩,
      [.log "PAUSE requested (note: API call cannot be paused in V1).", .stateEv])
  else (st, ⟨false, "NOT_RUNNING"⟩, [])

/-- `runner.resume()`. -/
def runnerResume (st : RunnerState) : RunnerState × RRes × List REvent :=
  if st.running then
    ({ st with paused := false }, ⟨true, ""⟩, [.log "RESUME requested.", .stateEv])
  else (st, ⟨false, "NOT_RUNNING"⟩, [])

/-- `runner.stop(reason)`: set `stopRequested`, default `error`/`nextAction`
if unset, and (when a run was active) immediately leave the running state and
show the stop report. -/
def runnerStop (st : RunnerState) (reason : String) : RunnerState × RRes × List REvent :=
  let st1 := { st with
    stopRequested := true,
    error := strOr st.error (strOr reason "STOP pressed by user."),
    nextAction := strOr st.nextAction
      "If you want me to proceed, re-run with explicit authorization where needed." }
  if st1.running then
    let st2 := { st1 with running := false, paused := false }
    let (st3, evs) := showStopReport st2 st2.error
    (st3, ⟨true, ""⟩,
      .log "STOP requested. If an API call is running, it will finish then be ignored."
        :: .stateEv :: evs)
  else
    let (st2, evs) := showStopReport st1 st1.error
    (st2, ⟨true, ""⟩, (.log "STOP (no active run)." :: evs) ++ [.stateEv])

/-- How the background `runTask` promise settles: a resolved `{ok:true,…}`
result, a resolved falsy/`ok:false` result (`error` is `res.error`, empty when
absent), or a thrown exception (`msg` is `e.message`, empty when absent). -/
inductive TaskOutcome where
  | success (answer proofPath : String)
  | failure (error : String)
  | thrown (msg : String)
  deriving Repr, DecidableEq

/-- The async completion handler inside `runner.start` (the body after
`await runTask(...)` plus its `catch`).  `ts` stands for `Date.now()` at the
"Answer ready" step. -/
def runnerComplete (st : RunnerState) (out : TaskOutcome) (ts : Nat) :
    RunnerState × List REvent :=
  if st.stopRequested then
    let st1 := { st with running := false, paused := false }
    let (st2, evs) := showStopReport st1 (strOr st1.error "STOP requested by user.")
    match out with
    | .thrown _ => (st2, .stateEv :: evs)
    | _ => (st2, .log "Result ignored because STOP was requested." :: .stateEv :: evs)
  else
    match out with
    | .failure err =>
      let st1 := { st with
        error := strOr err "RUN_FAILED",
        nextAction := "Check API key / network and retry.",
        running := false, paused := false }
      let (st2, evs) := showStopReport st1 st1.error
      (st2, .stateEv :: evs)
    | .thrown msg =>
      let st1 := { st with
        error := strOr msg "EXCEPTION",
        nextAction := "Retry. If it persists, check network/firewall and API key.",
        running := false, paused := false }
      let (st2, evs) := showStopReport st1 st1.error
      (st2, .stateEv :: evs)
    | .success answer proofPath =>
      let step : Step := ⟨ts, "Answer ready", "ok",
        if proofPath = "" then "" else "proof=" ++ proofPath⟩
      let logEvs : List REvent :=
        if answer = "" then []
        else [.log "ANSWER (top):", .log (answer.take 2500)]
      let report :=
        "TASK: " ++ st.taskText ++ "\n\nSTATUS: DONE\n\nPROOF JSON: " ++
        strOr proofPath "(none)" ++ "\n\nOUTPUT (full):\n" ++ strOr answer "(none)"
      let st1 := { st with
        proofJsonPath := proofPath, steps := st.steps ++ [step],
        running := false, paused := false, lastReport := report }
      (st1, ([.stepEv step, .answerEv st.taskText answer proofPath] ++ logEvs)
              ++ [.stateEv, .reportEv report])

/-- Number of stop reports in an event list (each `_showStopReport` call
shows exactly one stop-report dialog). -/
def countStopReports (evs : List REvent) : Nat :=
  (evs.filter fun e => match e with | .reportDialog _ => true | _ => false).length

/-- Whether an event list surfaces a task answer (`jarvis:answer`). -/
def hasAnswerEvent (evs : List REvent) : Bool :=
  evs.any fun e => match e with | .answerEv _ _ _ => true | _ => false

-- ==================== Autopilot supervisor (dead-man switch) ====================

/-- A screen coordinate (`screen.getCursorScreenPoint()`). -/
structure Point where
  x : Int
  y : Int
  deriving Repr, DecidableEq

/-- `MOUSE_DIST = 46` (Manhattan threshold). -/
def MOUSE_DIST : Nat := 46

/-- `ARM_GRACE_MS = 1500`. -/
def ARM_GRACE_MS : Nat := 1500

/-- The process-wide control-plane state: the autopilot globals
(`autopilotArmed`, `manualOverride`, `autopilotArmedAt`, `lastCursor`,
`ignoreMouseUntil`, `registeredHotkey`, whether the cursor-poll interval is
live), the permission config, the runner singleton and the audit trail. -/
structure SysState where
  armed : Bool
  manualOverride : Bool
  armedAt : Nat
  ignoreMouseUntil : Nat
  lastCursor : Option Point
  registeredHotkey : String
  cursorWatchOn : Bool
  perms : PermMap
  runner : RunnerState
  audit : AuditTrail
  deriving Repr, DecidableEq

/-- `unregisterAutopilotHotkey()`: audit only when a hotkey was registered,
then clear the registration. -/
def unregisterHotkey (s : SysState) : SysState :=
  if s.registeredHotkey = "" then s
  else { s with
    audit := s.audit ++ [("AUTOPILOT_HOTKEY_UNREGISTERED", .hotkeyUnreg s.registeredHotkey)],
    registeredHotkey := "" }

/-- `registerAutopilotHotkey()`: first unregister, then try the accelerator
list; `hk` names the first accelerator the environment accepts (`none` when
all registrations fail, which is audited but non-fatal). -/
def registerHotkey (s : SysState) (hk : Option String) : SysState :=
  let s0 := unregisterHotkey s
  match hk with
  | some accel =>
    { s0 with
      registeredHotkey := accel,
      audit := s0.audit ++ [("AUTOPILOT_HOTKEY_REGISTERED", .hotkeyReg accel)] }
  | none =>
    { s0 with audit := s0.audit ++ [("AUTOPILOT_HOTKEY_REGISTER_FAIL", .hotkeyRegFail)] }

/-- `setAutopilotArmed(on, why)`.  On disarm: unregister the hotkey and stop
the cursor watch.  On arm: record the arm time, open the grace ignore-window,
snapshot the cursor as baseline, register the hotkey and start the poll
(which re-snapshots the baseline).  Always audits `AUTOPILOT_ARM_STATE`.
`now` and `p` stand for `Date.now()` and the current cursor point. -/
def setAutopilotArmed (s : SysState) (flag : Bool) (why : String) (now : Nat)
    (p : Point) (hk : Option String) : SysState :=
  let s1 := { s with armed := flag }
  let s2 :=
    if flag then
      let sa := { s1 with
        armedAt := now, ignoreMouseUntil := now + ARM_GRACE_MS, lastCursor := some p }
      let sb := registerHotkey sa hk
      { sb with cursorWatchOn := true, lastCursor := some p }
    else
      let sa := unregisterHotkey s1
      { sa with cursorWatchOn := false }
  { s2 with audit := s2.audit ++ [("AUTOPILOT_ARM_STATE", .armState flag why)] }

/-- `triggerManualTakeover(why)`: no-op unless armed; otherwise set the
override flag, audit `MANUAL_TAKEOVER`, disarm (hard rule) and pause the
runner. -/
def triggerManualTakeover (s : SysState) (why : String) : SysState :=
  if s.armed then
    let s1 := { s with
      manualOverride := true,
      audit := s.audit ++ [("MANUAL_TAKEOVER", .takeover why)] }
    let s2 := setAutopilotArmed s1 false "manual_takeover" 0 ⟨0, 0⟩ none
    { s2 with runner := (runnerPause s2.runner).1 }
  else s

/-- Manhattan distance `Math.abs(p.x - q.x) + Math.abs(p.y - q.y)`. -/
def manhattan (p q : Point) : Nat :=
  (p.x - q.x).natAbs + (p.y - q.y).natAbs

/-- One tick of the `startCursorWatch` interval (`setInterval` body):
bail when disarmed; during the grace window only rebaseline; otherwise
compute the instantaneous Manhattan delta, rebaseline unconditionally, and
outside the ignore window trigger a takeover when the delta reaches
`MOUSE_DIST`. -/
def pollTick (s : SysState) (now : Nat) (p : Point) : SysState :=
  if s.cursorWatchOn = false then s
  else if s.armed = false then s
  else if s.armedAt ≠ 0 ∧ (now : Int) - (s.armedAt : Int) < (ARM_GRACE_MS : Int) then
    { s with lastCursor := some p }
  else
    match s.lastCursor with
    | none => { s with lastCursor := some p }
    | some last =>
      let dist := manhattan p last
      let s1 := { s with lastCursor := some p }
      if now < s.ignoreMouseUntil then s1
      else if MOUSE_DIST ≤ dist then triggerManualTakeover s1 "MOUSE_MOVE"
      else s1

/-- The `globalShortcut` callback: fires only while a hotkey is registered,
and arms-gates the takeover. -/
def hotkeyFire (s : SysState) : SysState :=
  if s.registeredHotkey ≠ "" ∧ s.armed then triggerManualTakeover s "SPACE" else s

/-- `setInjectedIgnoreWindow(ms)`: extend the ignore window (capped at
4000 ms) and audit; no-op for a non-positive duration. -/
def setInjectedIgnoreWindow (s : SysState) (ms : Nat) (now : Nat) : SysState :=
  if 0 < ms then
    { s with
      ignoreMouseUntil := now + min 4000 ms,
      audit := s.audit ++ [("AUTOPILOT_INJECT_IGNORE", .injectIgnore ms)] }
  else s

/-- The tray "ARM AUTOPILOT (OS CONTROL)" click handler and the
`jarvis:autopilot:arm` IPC handler share this gate: request the
`"os_control"` capability and arm only when the decision is `allow`. -/
def armViaPermission (s : SysState) (resp : Option Nat) (why : String) (now : Nat)
    (p : Point) (hk : Option String) : SysState :=
  let res := permRequest s.perms "os_control" resp
  let s1 := { s with perms := res.1, audit := s.audit ++ res.2.2 }
  if res.2.1.ok = false ∨ res.2.1.decision ≠ "allow" then s1
  else setAutopilotArmed s1 true why now p hk

/-- Every command path of the host process that touches the control-plane
state: the tray menu entries, the IPC handlers, the hotkey callback and the
poll timer.  `resp` carries the permission-dialog response, `now`/`p` the
clock and cursor readings, `hk` the accelerator the OS accepts, `out` the
settlement of the background task. -/
inductive Cmd where
  | trayArm (resp : Option Nat) (now : Nat) (p : Point) (hk : Option String)
  | ipcArm (resp : Option Nat) (why : String) (now : Nat) (p : Point) (hk : Option String)
  | trayDisarm
  | ipcDisarm (why : String)
  | hotkey
  | poll (now : Nat) (p : Point)
  | inject (ms : Nat) (now : Nat)
  | permReq (cls : String) (resp : Option Nat)
  | rStart (task key : String) (ts : Nat)
  | rPause
  | rResume
  | rStop (reason : String)
  | rComplete (out : TaskOutcome) (ts : Nat)

/-- The one-step transition of the whole control plane. -/
def sysStep (s : SysState) : Cmd → SysState
  | .trayArm resp now p hk => armViaPermission s resp "tray_arm" now p hk
  | .ipcArm resp why now p hk => armViaPermission s resp (strOr why "ipc_arm") now p hk
  | .trayDisarm => setAutopilotArmed s false "tray_disarm" 0 ⟨0, 0⟩ none
  | .ipcDisarm why => setAutopilotArmed s false (strOr why "ipc_disarm") 0 ⟨0, 0⟩ none
  | .hotkey => hotkeyFire s
  | .poll now p => pollTick s now p
  | .inject ms now => setInjectedIgnoreWindow s ms now
  | .permReq cls resp =>
    { s with perms := (permRequest s.perms cls resp).1,
             audit := s.audit ++ (permRequest s.perms cls resp).2.2 }
  | .rStart task key ts => { s with runner := (runnerStart s.runner task key ts).1 }
  | .rPause => { s with runner := (runnerPause s.runner).1 }
  | .rResume => { s with runner := (runnerResume s.runner).1 }
  | .rStop reason => { s with runner := (runnerStop s.runner reason).1 }
  | .rComplete out ts => { s with runner := (runnerComplete s.runner out ts).1 }

/-- The commands that go through the permission-gated arming path. -/
def isArmCmd : Cmd → Bool
  | .trayArm _ _ _ _ => true
  | .ipcArm _ _ _ _ _ => true
  | _ => false

/-- For an arming command, whether the `"os_control"` permission request it
performs (against the pre-state config) resolves to `allow`. -/
def armPermAllowed (s : SysState) : Cmd → Bool
  | .trayArm resp _ _ _ => (permRequest s.perms "os_control" resp).2.1.decision == "allow"
  | .ipcArm resp _ _ _ _ => (permRequest s.perms "os_control" resp).2.1.decision == "allow"
  | _ => false

/-- `MANUAL_TAKEOVER` entries in an audit trail. -/
def countTakeovers (l : AuditTrail) : Nat :=
  (l.filter fun e => e.1 == "MANUAL_TAKEOVER").length

/-- Disarm transitions recorded in an audit trail
(`AUTOPILOT_ARM_STATE` with `armed:false`). -/
def isDisarmEntry : String × AuditData → Bool
  | (_, .armState false _) => true
  | _ => false

/-- Number of audited disarms. -/
def countDisarms (l : AuditTrail) : Nat := (l.filter isDisarmEntry).length

-- ==================== Helper lemmas: audit chain ====================

theorem chainEnd_append_singleton (p : String) (l : List AuditRecord) (r : AuditRecord) :
    chainEnd p (l ++ [r]) = r.hash := by
  induction l generalizing p with
  | nil => rfl
  | cons a as ih => simpa [chainEnd] using ih a.hash

theorem chainFrom_append_singleton (H : String → String) (p : String)
    (l : List AuditRecord) (r : AuditRecord)
    (hl : chainFrom H p l = true) (hprev : r.prev_hash = chainEnd p l)
    (hh : r.hash = H (auditCore r)) :
    chainFrom H p (l ++ [r]) = true := by
  induction l generalizing p with
  | nil =>
    simp [chainFrom, chainEnd] at *
    exact ⟨hprev, hh⟩
  | cons a as ih =>
    simp only [chainFrom, Bool.and_eq_true, beq_iff_eq] at hl ⊢
    refine ⟨⟨hl.1.1, hl.1.2⟩, ?_⟩
    exact ih a.hash hl.2 (by simpa [chainEnd] using hprev)

theorem auditEvent_log (H : String → String) (st : AuditState) (ts : Nat)
    (type data : String) :
    (auditEvent H st ts type data).log =
      st.log ++ [⟨ts, type, data, st.lastHash,
        H (toString ts ++ "|" ++ type ++ "|" ++ data ++ "|" ++ st.lastHash)⟩] := rfl

/-- The loop invariant of chain replay: validity plus a correct `lastHash`
pointer are preserved by any further sequence of appends. -/
theorem auditRun_loop_inv (H : String → String) (evs : List (Nat × String × String))
    (st : AuditState) (h1 : chainFrom H "" st.log = true)
    (h2 : st.lastHash = chainEnd "" st.log) :
    chainFrom H ""
        (evs.foldl (fun st e => auditEvent H st e.1 e.2.1 e.2.2) st).log = true ∧
    (evs.foldl (fun st e => auditEvent H st e.1 e.2.1 e.2.2) st).lastHash =
      chainEnd "" (evs.foldl (fun st e => auditEvent H st e.1 e.2.1 e.2.2) st).log := by
  induction evs generalizing st with
  | nil => exact ⟨h1, h2⟩
  | cons e es ih =>
    simp only [List.foldl_cons]
    apply ih
    · apply chainFrom_append_singleton H "" st.log _ h1
      · simpa using h2.symm ▸ rfl
      · rfl
    · simp [auditEvent, chainEnd_append_singleton]

-- ==================== Helper lemmas: permission gate ====================

theorem permLookup_filter_ne (ps : PermMap) (k k' : String) (h : k' ≠ k) :
    permLookup (ps.filter fun p => p.1 ≠ k) k' = permLookup ps k' := by
  induction ps with
  | nil => rfl
  | cons a as ih =>
    rcases eq_or_ne a.1 k with hak | hak
    · have h1 : (decide (a.1 ≠ k)) = false := by simp [hak]
      have h2 : a.1 ≠ k' := by rw [hak]; exact fun he => h he.symm
      simp only [List.filter_cons, h1, Bool.false_eq_true, if_false]
      rw [ih]
      cases a with
      | mk a1 a2 => simp only [permLookup, if_neg h2]
    · have h1 : (decide (a.1 ≠ k)) = true := by simp [hak]
      cases a with
      | mk a1 a2 =>
        simp only [List.filter_cons, h1, if_true, permLookup]
        by_cases h2 : a1 = k'
        · simp [h2]
        · simp only [if_neg h2]
          simpa using ih

theorem permLookup_setPerm_self (ps : PermMap) (k v : String) :
    permLookup (setPerm ps k v) k = some v := by
  simp [setPerm, permLookup]

theorem permLookup_setPerm_other (ps : PermMap) (k v k' : String) (h : k' ≠ k) :
    permLookup (setPerm ps k v) k' = permLookup ps k' := by
  have h2 : k ≠ k' := fun he => h he.symm
  simp only [setPerm, permLookup, if_neg h2]
  exact permLookup_filter_ne ps k k' h

/-- A persisted `"allow"`/`"deny"` decision survives any later
`permRequest` call (for the same class it is served from cache and left
alone; for a different class only the other key is written). -/
theorem permRequest_preserves_decision (ps : PermMap) (c : String) (resp : Option Nat)
    (k v : String) (hv : v = "allow" ∨ v = "deny") (h : permLookup ps k = some v) :
    permLookup (permRequest ps c resp).1 k = some v := by
  by_cases h1 : permLookup ps (permKey c) = some "allow"
  · simp [permRequest, h1, h]
  · by_cases h2 : permLookup ps (permKey c) = some "deny"
    · simp [permRequest, h1, h2, h]
    · have hkk : k ≠ permKey c := by
        intro he
        subst he
        rcases hv with hv | hv <;> subst hv
        · exact h1 h
        · exact h2 h
      by_cases hr2 : normResp resp = 2
      · simp [permRequest, h1, h2, hr2, permLookup_setPerm_other ps (permKey c) "allow" k hkk, h]
      · by_cases hr1 : normResp resp = 1
        · simp [permRequest, h1, h2, hr2, hr1, h]
        · simp [permRequest, h1, h2, hr2, hr1,
            permLookup_setPerm_other ps (permKey c) "deny" k hkk, h]

/-- Persisted decisions survive whole sequences of requests. -/
theorem permRun_preserves_decision (calls : List (String × Option Nat)) (ps : PermMap)
    (k v : String) (hv : v = "allow" ∨ v = "deny") (h : permLookup ps k = some v) :
    permLookup (permRun ps calls) k = some v := by
  induction calls generalizing ps with
  | nil => exact h
  | cons cl cls ih =>
    exact ih _ (permRequest_preserves_decision ps cl.1 cl.2 k v hv h)

/-- A cached `"allow"` is served with no prompt, no audit, no config change. -/
theorem permRequest_cached_allow (ps : PermMap) (c : String) (resp : Option Nat)
    (h : permLookup ps (permKey c) = some "allow") :
    permRequest ps c resp = (ps, ⟨true, "allow", true, false, false⟩, []) := by
  simp [permRequest, h]

/-- A cached `"deny"` is served with no prompt, no audit, no config change. -/
theorem permRequest_cached_deny (ps : PermMap) (c : String) (resp : Option Nat)
    (h : permLookup ps (permKey c) = some "deny") :
    permRequest ps c resp = (ps, ⟨true, "deny", true, false, false⟩, []) := by
  simp [permRequest, h]

-- ==================== C2 ====================

/-- C2 — confirmed.  For every sequence of audit appends starting from the
empty chain, the resulting log is a valid hash chain: the first record has
`prev_hash = ""`, every later record's `prev_hash` equals the hash of the
immediately preceding record, and every record's stored `hash` is reproduced
by recomputing the digest of `ts | type | canonical(data) | prev_hash`
(`chainOk` states exactly these three conditions; the digest `H` models
SHA-256 and is arbitrary). -/
theorem audit_chain_valid (H : String → String) (evs : List (Nat × String × String)) :
    chainOk H (auditRun H evs).log = true := by
  have := auditRun_loop_inv H evs emptyAudit (by rfl) (by rfl)
  exact this.1

-- ==================== C4 ====================

/-- C4 — confirmed.  For a capability class with no persisted decision:
the request prompts; after an Allow-Once answer the config is unchanged, so
an immediately following request prompts again; after an Always-Allow answer
every later request for the class (across any interleaved requests) returns
`allow` with `cached = true` and no prompt. -/
theorem perm_fresh_prompts_always_allow_caches
    (ps : PermMap) (c : String) (r1 r2 r3 : Option Nat)
    (calls : List (String × Option Nat))
    (hfresh : permLookup ps (permKey c) = none) :
    ((permRequest ps c r1).2.1.prompted = true) ∧
    (normResp r1 = 1 →
       (permRequest ps c r1).1 = ps ∧
       (permRequest (permRequest ps c r1).1 c r2).2.1.prompted = true) ∧
    (normResp r1 = 2 →
       (permRequest (permRun (permRequest ps c r1).1 calls) c r3).2.1 =
         ⟨true, "allow", true, false, false⟩) := by
  have hna : ¬ permLookup ps (permKey c) = some "allow" := by simp [hfresh]
  have hnd : ¬ permLookup ps (permKey c) = some "deny" := by simp [hfresh]
  refine ⟨?_, ?_, ?_⟩
  · by_cases hr2 : normResp r1 = 2
    · simp [permRequest, hna, hnd, hr2]
    · by_cases hr1 : normResp r1 = 1
      · simp [permRequest, hna, hnd, hr2, hr1]
      · simp [permRequest, hna, hnd, hr2, hr1]
  · intro h1
    have heq : (permRequest ps c r1).1 = ps := by
      simp [permRequest, hna, hnd, h1]
    refine ⟨heq, ?_⟩
    rw [heq]
    by_cases hr2 : normResp r2 = 2
    · simp [permRequest, hna, hnd, hr2]
    · by_cases hr1 : normResp r2 = 1
      · simp [permRequest, hna, hnd, hr2, hr1]
      · simp [permRequest, hna, hnd, hr2, hr1]
  · intro h2
    have heq : (permRequest ps c r1).1 = setPerm ps (permKey c) "allow" := by
      simp [permRequest, hna, hnd, h2]
    have hallow : permLookup (permRun (permRequest ps c r1).1 calls) (permKey c) =
        some "allow" := by
      apply permRun_preserves_decision calls _ _ _ (Or.inl rfl)
      rw [heq]
      exact permLookup_setPerm_self ps (permKey c) "allow"
    rw [permRequest_cached_allow _ c r3 hallow]

/-- Witness for C4 at a concrete input: class `"os_control"`, empty config;
the first prompt answered Allow-Once leaves the next call prompting, and an
Always-Allow answer makes a later call return from cache without a prompt. -/
theorem perm_fresh_prompts_always_allow_caches_witness :
    ((permRequest [] "os_control" (some 1)).2.1.prompted = true) ∧
    ((permRequest (permRequest [] "os_control" (some 1)).1 "os_control" (some 0)).2.1.prompted
       = true) ∧
    ((permRequest (permRun (permRequest [] "os_control" (some 2)).1
        [("screen_read", some 0)]) "os_control" none).2.1 =
       ⟨true, "allow", true, false, false⟩) := by
  have h1 := perm_fresh_prompts_always_allow_caches [] "os_control" (some 1) (some 0) none
    [("screen_read", some 0)] (by rfl)
  have h2 := perm_fresh_prompts_always_allow_caches [] "os_control" (some 2) (some 0) none
    [("screen_read", some 0)] (by rfl)
  exact ⟨h1.1, (h1.2.1 rfl).2, h2.2.2 rfl⟩

-- ==================== C9 ====================

/-- C9 — confirmed.  For a fresh capability class, any dialog response other
than Allow-Once (1) or Always-Allow (2) — including the default `0` taken on
cancel or on an ambiguous response — resolves to `deny` and persists it:
the config maps the class to `"deny"`, and every later request for the class
(across any interleaved requests) returns `deny` with `cached = true` and no
prompt; there is no non-persisting deny outcome. -/
theorem plain_deny_is_persisted
    (ps : PermMap) (c : String) (resp r2 : Option Nat)
    (calls : List (String × Option Nat))
    (hfresh : permLookup ps (permKey c) = none)
    (h1 : normResp resp ≠ 1) (h2 : normResp resp ≠ 2) :
    (permRequest ps c resp).2.1 = ⟨true, "deny", false, false, true⟩ ∧
    permLookup (permRequest ps c resp).1 (permKey c) = some "deny" ∧
    (permRequest (permRun (permRequest ps c resp).1 calls) c r2).2.1 =
      ⟨true, "deny", true, false, false⟩ := by
  have hna : ¬ permLookup ps (permKey c) = some "allow" := by simp [hfresh]
  have hnd : ¬ permLookup ps (permKey c) = some "deny" := by simp [hfresh]
  have heq : (permRequest ps c resp).1 = setPerm ps (permKey c) "deny" := by
    simp [permRequest, hna, hnd, h1, h2]
  have hdeny : permLookup (permRun (permRequest ps c resp).1 calls) (permKey c) =
      some "deny" := by
    apply permRun_preserves_decision calls _ _ _ (Or.inr rfl)
    rw [heq]
    exact permLookup_setPerm_self ps (permKey c) "deny"
  refine ⟨?_, ?_, ?_⟩
  · simp [permRequest, hna, hnd, h1, h2]
  · rw [heq]; exact permLookup_setPerm_self ps (permKey c) "deny"
  · rw [permRequest_cached_deny _ c r2 hdeny]

/-- Witness for C9 at a concrete input: a cancelled dialog (`none` response)
for the fresh class `"os_control"` persists `deny`, and a later request is
served from cache. -/
theorem plain_deny_is_persisted_witness :
    (permRequest [] "os_control" none).2.1 = ⟨true, "deny", false, false, true⟩ ∧
    permLookup (permRequest [] "os_control" none).1 (permKey "os_control") = some "deny" ∧
    (permRequest (permRun (permRequest [] "os_control" none).1 [("mic", some 2)])
        "os_control" (some 2)).2.1 = ⟨true, "deny", true, false, false⟩ :=
  plain_deny_is_persisted [] "os_control" none (some 2) [("mic", some 2)]
    (by rfl) (by decide) (by decide)

-- ==================== C5 ====================

/-- C5 — counterexample.  A permission request served from the persisted
cache resolves (to a cached `allow`) but appends no audit record at all,
refuting "every resolution (cached or fresh) is audited". -/
theorem cached_resolution_not_audited_cex :
    (permRequest [("os_control", "allow")] "os_control" (some 0)).2.1 =
      ⟨true, "allow", true, false, false⟩ ∧
    (permRequest [("os_control", "allow")] "os_control" (some 0)).2.2 = [] := by
  constructor <;> rfl

/-- C5 — amended.  Exactly the fresh (prompted) resolutions are written to
the audit chain, as a single `PERMISSION_DECISION` record carrying the class,
the decision and the mode; cached resolutions append nothing. -/
theorem permission_audit_fresh_only (ps : PermMap) (c : String) (resp : Option Nat) :
    ((permRequest ps c resp).2.1.cached = true → (permRequest ps c resp).2.2 = []) ∧
    ((permRequest ps c resp).2.1.cached = false →
       (permRequest ps c resp).2.2 =
         [("PERMISSION_DECISION",
            .permDecision (permKey c) (permRequest ps c resp).2.1.decision
              (if (permRequest ps c resp).2.1.once = true then "once" else "always"))]) := by
  by_cases h1 : permLookup ps (permKey c) = some "allow"
  · simp [permRequest, h1]
  · by_cases h2 : permLookup ps (permKey c) = some "deny"
    · simp [permRequest, h1, h2]
    · by_cases hr2 : normResp resp = 2
      · simp [permRequest, h1, h2, hr2]
      · by_cases hr1 : normResp resp = 1
        · simp [permRequest, h1, h2, hr2, hr1]
        · simp [permRequest, h1, h2, hr2, hr1]

/-- Witness for the amended C5: a fresh Allow-Once resolution appends exactly
its `PERMISSION_DECISION` record, a cached one appends nothing. -/
theorem permission_audit_fresh_only_witness :
    (permRequest [] "os_control" (some 1)).2.2 =
      [("PERMISSION_DECISION", .permDecision "os_control" "allow" "once")] ∧
    (permRequest [("os_control", "deny")] "os_control" (some 1)).2.2 = [] := by
  have h1 := permission_audit_fresh_only [] "os_control" (some 1)
  have h2 := permission_audit_fresh_only [("os_control", "deny")] "os_control" (some 1)
  refine ⟨?_, h2.1 (by rfl)⟩
  have := h1.2 (by rfl)
  rw [this]
  rfl

-- ==================== C8 ====================

/-- C8 — confirmed.  `start` is rejected with `EMPTY_TASK` for blank task
text, `NO_API_KEY` for a blank credential, `ALREADY_RUNNING` while a task is
running, and in each rejection the runner state is returned unchanged (only a
log line is emitted, no field is modified). -/
theorem runner_start_rejections (st : RunnerState) (task key : String) (ts : Nat) :
    (jsTrim task = "" →
       runnerStart st task key ts =
         (st, ⟨false, "EMPTY_TASK"⟩, [.log "No task text provided."])) ∧
    (jsTrim task ≠ "" → jsTrim key = "" →
       runnerStart st task key ts =
         (st, ⟨false, "NO_API_KEY"⟩, [.log "API key missing."])) ∧
    (jsTrim task ≠ "" → jsTrim key ≠ "" → st.running = true →
       runnerStart st task key ts =
         (st, ⟨false, "ALREADY_RUNNING"⟩, [.log "Already running."])) := by
  refine ⟨?_, ?_, ?_⟩
  · intro h1
    simp [runnerStart, h1]
  · intro h1 h2
    simp [runnerStart, h1, h2]
  · intro h1 h2 h3
    simp [runnerStart, h1, h2, h3]

/-- Witness for C8 at concrete inputs: a whitespace-only task, a blank key,
and a start while running each return their error with the state intact. -/
theorem runner_start_rejections_witness :
    (runnerStart runnerInit "  " "key" 0 =
       (runnerInit, ⟨false, "EMPTY_TASK"⟩, [.log "No task text provided."])) ∧
    (runnerStart runnerInit "task" "" 0 =
       (runnerInit, ⟨false, "NO_API_KEY"⟩, [.log "API key missing."])) ∧
    (runnerStart { runnerInit with running := true } "task" "key" 0 =
       ({ runnerInit with running := true }, ⟨false, "ALREADY_RUNNING"⟩,
         [.log "Already running."])) := by
  refine ⟨?_, ?_, ?_⟩
  · exact (runner_start_rejections runnerInit "  " "key" 0).1 (by rfl)
  · exact (runner_start_rejections runnerInit "task" "" 0).2.1 (by decide) (by rfl)
  · exact (runner_start_rejections { runnerInit with running := true } "task" "key" 0).2.2
      (by decide) (by decide) (by rfl)

-- ==================== C1 ====================

/-- C1 — counterexample.  Start a run, stop it, then let the in-flight task
resolve: `stop()` shows one stop report, but the completion handler — seeing
`stopRequested` — shows the stop report **again**, so a second report is
emitted, refuting "no second report is emitted". -/
theorem stop_second_report_cex :
    (runnerStop (runnerStart runnerInit "task" "key" 0).1 "").1.running = false ∧
    countStopReports (runnerStop (runnerStart runnerInit "task" "key" 0).1 "").2.2 = 1 ∧
    countStopReports
      (runnerComplete (runnerStop (runnerStart runnerInit "task" "key" 0).1 "").1
        (.success "" "") 1).2 = 1 := by
  refine ⟨rfl, rfl, rfl⟩

/-- C1 — amended.  Calling `stop()` while a task is running immediately sets
`running = false` and shows exactly one stop report; when the in-flight task
later resolves (success, failure or exception), the late result is discarded
— no answer event is emitted and the steps and result-artifact path are
untouched — but the stop report is shown again (one more stop-report
emission), rather than being suppressed. -/
theorem stop_discards_late_result_but_reshows_report
    (st : RunnerState) (reason : String) (out : TaskOutcome) (ts : Nat)
    (hrun : st.running = true) :
    (runnerStop st reason).1.running = false ∧
    (runnerStop st reason).1.stopRequested = true ∧
    countStopReports (runnerStop st reason).2.2 = 1 ∧
    countStopReports (runnerComplete (runnerStop st reason).1 out ts).2 = 1 ∧
    hasAnswerEvent (runnerComplete (runnerStop st reason).1 out ts).2 = false ∧
    (runnerComplete (runnerStop st reason).1 out ts).1.steps =
      (runnerStop st reason).1.steps ∧
    (runnerComplete (runnerStop st reason).1 out ts).1.proofJsonPath =
      (runnerStop st reason).1.proofJsonPath ∧
    (runnerComplete (runnerStop st reason).1 out ts).1.running = false := by
  have hstop : (runnerStop st reason).1.running = false ∧
      (runnerStop st reason).1.stopRequested = true ∧
      countStopReports (runnerStop st reason).2.2 = 1 := by
    simp [runnerStop, hrun, showStopReport, countStopReports]
  refine ⟨hstop.1, hstop.2.1, hstop.2.2, ?_, ?_, ?_, ?_, ?_⟩ <;>
    cases out <;>
      simp [runnerComplete, hstop.2.1, showStopReport, countStopReports, hasAnswerEvent]

/-- Witness for the amended C1: the concrete start / stop / late-success
trace evaluates exactly as the theorem states. -/
theorem stop_discards_late_result_but_reshows_report_witness :
    countStopReports
      (runnerComplete (runnerStop (runnerStart runnerInit "task" "key" 0).1 "stopped").1
        (.failure "boom") 1).2 = 1 ∧
    hasAnswerEvent
      (runnerComplete (runnerStop (runnerStart runnerInit "task" "key" 0).1 "stopped").1
        (.failure "boom") 1).2 = false := by
  have h := stop_discards_late_result_but_reshows_report
    (runnerStart runnerInit "task" "key" 0).1 "stopped" (.failure "boom") 1 (by rfl)
  exact ⟨h.2.2.2.1, h.2.2.2.2.1⟩

-- ==================== Helper lemmas: supervisor ====================

theorem setArmed_false_fields (s : SysState) (why : String) (now : Nat) (p : Point)
    (hk : Option String) :
    (setAutopilotArmed s false why now p hk).armed = false ∧
    (setAutopilotArmed s false why now p hk).lastCursor = s.lastCursor ∧
    (setAutopilotArmed s false why now p hk).manualOverride = s.manualOverride ∧
    (setAutopilotArmed s false why now p hk).runner = s.runner ∧
    countTakeovers (setAutopilotArmed s false why now p hk).audit = countTakeovers s.audit ∧
    countDisarms (setAutopilotArmed s false why now p hk).audit = countDisarms s.audit + 1 := by
  by_cases hr : s.registeredHotkey = "" <;>
    simp [setAutopilotArmed, unregisterHotkey, hr, countTakeovers, countDisarms,
      isDisarmEntry, List.filter_append]

theorem trigger_armed_true_fields (s : SysState) (why : String) (h : s.armed = true) :
    (triggerManualTakeover s why).armed = false ∧
    (triggerManualTakeover s why).manualOverride = true ∧
    (triggerManualTakeover s why).lastCursor = s.lastCursor ∧
    countTakeovers (triggerManualTakeover s why).audit = countTakeovers s.audit + 1 ∧
    countDisarms (triggerManualTakeover s why).audit = countDisarms s.audit + 1 := by
  by_cases hr : s.registeredHotkey = "" <;>
    simp [triggerManualTakeover, h, setAutopilotArmed, unregisterHotkey, hr,
      countTakeovers, countDisarms, isDisarmEntry, List.filter_append, runnerPause]

theorem pollTick_disarmed (s : SysState) (now : Nat) (p : Point) (h : s.armed = false) :
    pollTick s now p = s := by
  by_cases hw : s.cursorWatchOn = false <;> simp [pollTick, hw, h]

theorem trigger_noop (s : SysState) (why : String) (h : s.armed = false) :
    triggerManualTakeover s why = s := by
  simp [triggerManualTakeover, h]

-- ==================== C3 ====================

/-- C3 — confirmed.  In the transition system of the host process, the armed
flag goes from `false` to `true` only through one of the two arming command
paths (tray menu, IPC), and only when the `"os_control"` permission request
performed by that path resolves to `allow`; every other command, and every
arm attempt whose decision is not `allow`, leaves `armed` false. -/
theorem armed_only_after_allowed_os_control (s : SysState) (c : Cmd)
    (h0 : s.armed = false) (h1 : (sysStep s c).armed = true) :
    isArmCmd c = true ∧ armPermAllowed s c = true := by
  cases c with
  | trayArm resp now p hk =>
    refine ⟨rfl, ?_⟩
    by_cases hd : (permRequest s.perms "os_control" resp).2.1.ok = false ∨
        (permRequest s.perms "os_control" resp).2.1.decision ≠ "allow"
    · exfalso
      simp [sysStep, armViaPermission, hd, h0] at h1
    · push_neg at hd
      simp [armPermAllowed, hd.2]
  | ipcArm resp why now p hk =>
    refine ⟨rfl, ?_⟩
    by_cases hd : (permRequest s.perms "os_control" resp).2.1.ok = false ∨
        (permRequest s.perms "os_control" resp).2.1.decision ≠ "allow"
    · exfalso
      simp [sysStep, armViaPermission, hd, h0] at h1
    · push_neg at hd
      simp [armPermAllowed, hd.2]
  | trayDisarm =>
    exfalso
    simp only [sysStep] at h1
    rw [(setArmed_false_fields s "tray_disarm" 0 ⟨0, 0⟩ none).1] at h1
    exact Bool.false_ne_true h1
  | ipcDisarm why =>
    exfalso
    simp only [sysStep] at h1
    rw [(setArmed_false_fields s (strOr why "ipc_disarm") 0 ⟨0, 0⟩ none).1] at h1
    exact Bool.false_ne_true h1
  | hotkey =>
    exfalso
    simp [sysStep, hotkeyFire, h0] at h1
  | poll now p =>
    exfalso
    rw [sysStep, pollTick_disarmed s now p h0] at h1
    rw [h0] at h1
    exact Bool.false_ne_true h1
  | inject ms now =>
    exfalso
    by_cases hm : 0 < ms <;> simp [sysStep, setInjectedIgnoreWindow, hm, h0] at h1
  | permReq cls resp =>
    exfalso
    simp [sysStep, h0] at h1
  | rStart task key ts =>
    exfalso
    simp [sysStep, h0] at h1
  | rPause =>
    exfalso
    simp [sysStep, h0] at h1
  | rResume =>
    exfalso
    simp [sysStep, h0] at h1
  | rStop reason =>
    exfalso
    simp [sysStep, h0] at h1
  | rComplete out ts =>
    exfalso
    simp [sysStep, h0] at h1

/-- Witness for C3: from a disarmed state with an empty permission config, an
Always-Allow answer to the tray arm command arms autopilot, and the theorem
yields that this command was an arm path whose permission resolved to allow. -/
theorem armed_only_after_allowed_os_control_witness :
    isArmCmd (Cmd.trayArm (some 2) 7 ⟨3, 4⟩ (some "Space")) = true ∧
    armPermAllowed ⟨false, false, 0, 0, none, "", false, [], runnerInit, []⟩
      (Cmd.trayArm (some 2) 7 ⟨3, 4⟩ (some "Space")) = true :=
  armed_only_after_allowed_os_control
    ⟨false, false, 0, 0, none, "", false, [], runnerInit, []⟩
    (Cmd.trayArm (some 2) 7 ⟨3, 4⟩ (some "Space")) (by rfl) (by rfl)

-- ==================== C10 ====================

/-- C10 — confirmed.  When autopilot is not armed, the takeover trigger is a
complete no-op: the whole state (override flag, audit trail, runner) is
returned unchanged.  When it is armed, a takeover disarms, so a second
trigger within the same armed period is a no-op: at most one takeover fires. -/
theorem takeover_gated_by_armed (s : SysState) (why why2 : String) :
    (s.armed = false → triggerManualTakeover s why = s) ∧
    (s.armed = true →
       (triggerManualTakeover s why).armed = false ∧
       triggerManualTakeover (triggerManualTakeover s why) why2 =
         triggerManualTakeover s why) := by
  refine ⟨fun h => trigger_noop s why h, fun h => ?_⟩
  have hf := (trigger_armed_true_fields s why h).1
  exact ⟨hf, trigger_noop _ why2 hf⟩

/-- Witness for C10: with autopilot disarmed the hotkey-takeover path leaves
the concrete state untouched; armed, a takeover disarms and a second trigger
changes nothing further. -/
theorem takeover_gated_by_armed_witness :
    (triggerManualTakeover ⟨false, false, 0, 0, none, "", false, [], runnerInit, []⟩ "SPACE" =
       ⟨false, false, 0, 0, none, "", false, [], runnerInit, []⟩) ∧
    (triggerManualTakeover
       (triggerManualTakeover ⟨true, false, 10, 20, none, "Space", true, [], runnerInit, []⟩
         "SPACE") "MOUSE_MOVE" =
     triggerManualTakeover ⟨true, false, 10, 20, none, "Space", true, [], runnerInit, []⟩
       "SPACE") := by
  refine ⟨?_, ?_⟩
  · exact (takeover_gated_by_armed
      ⟨false, false, 0, 0, none, "", false, [], runnerInit, []⟩ "SPACE" "MOUSE_MOVE").1 rfl
  · exact ((takeover_gated_by_armed
      ⟨true, false, 10, 20, none, "Space", true, [], runnerInit, []⟩ "SPACE" "MOUSE_MOVE").2
        rfl).2

-- ==================== C7 ====================

/-- C7 — confirmed.  On every poll tick in the grace window (strictly less
than 1500 ms after arming), no pointer delta — however large — triggers a
takeover: the sample only becomes the new baseline and nothing else changes. -/
theorem grace_period_no_takeover (s : SysState) (now : Nat) (p : Point)
    (hw : s.cursorWatchOn = true) (ha : s.armed = true) (ht : s.armedAt ≠ 0)
    (hg : now < s.armedAt + ARM_GRACE_MS) :
    pollTick s now p = { s with lastCursor := some p } := by
  have hgr : s.armedAt ≠ 0 ∧ (now : Int) - (s.armedAt : Int) < (ARM_GRACE_MS : Int) := by
    refine ⟨ht, ?_⟩
    simp only [ARM_GRACE_MS] at hg ⊢
    omega
  simp [pollTick, hw, ha, hgr]

/-- Witness for C7: armed at t=1000 with baseline (0,0), a poll at t=2000
(inside the grace window) with the cursor at (100000, 100000) does not
trigger; it only rebaselines. -/
theorem grace_period_no_takeover_witness :
    pollTick ⟨true, false, 1000, 2500, some ⟨0, 0⟩, "Space", true, [], runnerInit, []⟩
        2000 ⟨100000, 100000⟩ =
      { armed := true, manualOverride := false, armedAt := 1000, ignoreMouseUntil := 2500,
        lastCursor := some ⟨100000, 100000⟩, registeredHotkey := "Space",
        cursorWatchOn := true, perms := [], runner := runnerInit, audit := [] } :=
  grace_period_no_takeover
    ⟨true, false, 1000, 2500, some ⟨0, 0⟩, "Space", true, [], runnerInit, []⟩
    2000 ⟨100000, 100000⟩ rfl rfl (by decide) (by decide)

-- ==================== C6 ====================

/-- C6 — confirmed.  Armed, grace elapsed, ignore window expired: a poll
whose Manhattan distance from the previous sample is at least 46 triggers
exactly one takeover (one `MANUAL_TAKEOVER` audit record, override flag set)
and exactly one disarm (one `armed:false` audit record, `armed` now false);
a distance below the threshold (in particular 45) changes nothing but the
baseline; and in every case the baseline becomes the current sample, so the
detector measures instantaneous movement between consecutive polls. -/
theorem poll_threshold_triggers_once (s : SysState) (now : Nat) (p last : Point)
    (hw : s.cursorWatchOn = true) (ha : s.armed = true)
    (_ht : s.armedAt ≠ 0) (hg : s.armedAt + ARM_GRACE_MS ≤ now)
    (hi : s.ignoreMouseUntil ≤ now) (hl : s.lastCursor = some last) :
    (pollTick s now p).lastCursor = some p ∧
    (MOUSE_DIST ≤ manhattan p last →
       (pollTick s now p).armed = false ∧
       (pollTick s now p).manualOverride = true ∧
       countTakeovers (pollTick s now p).audit = countTakeovers s.audit + 1 ∧
       countDisarms (pollTick s now p).audit = countDisarms s.audit + 1) ∧
    (manhattan p last < MOUSE_DIST →
       pollTick s now p = { s with lastCursor := some p }) := by
  have hgr : ¬(s.armedAt ≠ 0 ∧ (now : Int) - (s.armedAt : Int) < (ARM_GRACE_MS : Int)) := by
    simp only [ARM_GRACE_MS] at hg ⊢
    rw [not_and]
    intro _
    omega
  have hni : ¬ now < s.ignoreMouseUntil := not_lt.mpr hi
  have hred : pollTick s now p =
      if MOUSE_DIST ≤ manhattan p last then
        triggerManualTakeover { s with lastCursor := some p } "MOUSE_MOVE"
      else { s with lastCursor := some p } := by
    simp [pollTick, hw, ha, hgr, hl, hni]
  by_cases hd : MOUSE_DIST ≤ manhattan p last
  · rw [hred, if_pos hd]
    have htr := trigger_armed_true_fields { s with lastCursor := some p } "MOUSE_MOVE"
      (by simpa using ha)
    refine ⟨by rw [htr.2.2.1], fun _ => ⟨htr.1, htr.2.1, ?_, ?_⟩,
      fun hlt => absurd hd (not_le.mpr hlt)⟩
    · rw [htr.2.2.2.1]
    · rw [htr.2.2.2.2]
  · rw [hred, if_neg hd]
    exact ⟨rfl, fun hge => absurd hge hd, fun _ => rfl⟩

/-- Witness for C6: armed at t=100, window closed at t=1600, baseline (0,0);
a poll at t=1700 at (46,0) yields one takeover and one disarm, while a poll
at (45,0) only rebaselines. -/
theorem poll_threshold_triggers_once_witness :
    (pollTick ⟨true, false, 100, 1600, some ⟨0, 0⟩, "Space", true, [], runnerInit, []⟩
        1700 ⟨46, 0⟩).armed = false ∧
    countTakeovers
      (pollTick ⟨true, false, 100, 1600, some ⟨0, 0⟩, "Space", true, [], runnerInit, []⟩
        1700 ⟨46, 0⟩).audit = 1 ∧
    pollTick ⟨true, false, 100, 1600, some ⟨0, 0⟩, "Space", true, [], runnerInit, []⟩
        1700 ⟨45, 0⟩ =
      { armed := true, manualOverride := false, armedAt := 100, ignoreMouseUntil := 1600,
        lastCursor := some ⟨45, 0⟩, registeredHotkey := "Space", cursorWatchOn := true,
        perms := [], runner := runnerInit, audit := [] } := by
  have h46 := poll_threshold_triggers_once
    ⟨true, false, 100, 1600, some ⟨0, 0⟩, "Space", true, [], runnerInit, []⟩
    1700 ⟨46, 0⟩ ⟨0, 0⟩ rfl rfl (by decide) (by decide) (by decide) rfl
  have h45 := poll_threshold_triggers_once
    ⟨true, false, 100, 1600, some ⟨0, 0⟩, "Space", true, [], runnerInit, []⟩
    1700 ⟨45, 0⟩ ⟨0, 0⟩ rfl rfl (by decide) (by decide) (by decide) rfl
  refine ⟨(h46.2.1 (by decide)).1, ?_, h45.2.2 (by decide)⟩
  have := (h46.2.1 (by decide)).2.2.1
  simpa [countTakeovers] using this

end Jarvis
